import Mathlib

/-!
Shallow embedding of the document ranking/classification pipeline of the
directory_analyzer backend: the importance scorer, main-contract selector and
document ranking (`app/services/document_analyzer.py`), the classifier's
response parser and retry loop (`app/services/ai_classifier.py`), and the
orchestrator's per-file processing (`app/services/contract_intelligence.py`).

Classification records are Python dicts in the source; here they are a
structure whose fields are the keys the pipeline reads, with `error`
modelling the truthiness of the `"error"` key.
-/

namespace DirAnalyzer

/-- Python's `needle in haystack` substring test on strings. -/
def strContains (haystack needle : String) : Bool :=
  (haystack.toList.tails).any (fun t => needle.toList.isPrefixOf t)

/-- Python's `any(ind in s for ind in inds)`. -/
def containsAny (s : String) (inds : List String) : Bool :=
  inds.any (fun ind => strContains s ind)

/-- Python's `str.lower()` (ASCII range, as exercised by the pipeline). -/
def lowerStr (s : String) : String :=
  String.mk (s.data.map Char.toLower)

/-- One document's classification record (the dict passed between pipeline
stages). `error` is true when the record carries a truthy `"error"` key. -/
structure Classification where
  filename : String
  document_type : String
  importance : String
  status : String
  confidence : String
  recommendation : String
  key_parties : String
  dollar_amount : String
  project_info : String
  summary : String
  text_length : Nat
  error : Bool
  deriving Repr, DecidableEq

/-- `importance_scores.get(importance, 40)` from
`DocumentAnalyzer.score_document_importance`. -/
def importanceBase (importance : String) : Int :=
  if importance = "CRITICAL" then 100
  else if importance = "HIGH" then 70
  else if importance = "MEDIUM" then 40
  else if importance = "LOW" then 20
  else 40

/-- `type_scores.get(doc_type, 0)` from `score_document_importance`. -/
def typePoints (doc_type : String) : Int :=
  if doc_type = "PRIMARY_CONTRACT" then 50
  else if doc_type = "CHANGE_ORDER" then 30
  else if doc_type = "AMENDMENT" then 25
  else if doc_type = "LETTER_OF_INTENT" then 20
  else if doc_type = "INSURANCE_DOCUMENT" then 15
  else if doc_type = "SCHEDULE" then 10
  else if doc_type = "CORRESPONDENCE" then 10
  else if doc_type = "PROPOSAL" then 5
  else if doc_type = "INVOICE" then 5
  else 0

/-- Status bonus points from `score_document_importance`. -/
def statusBonus (status : String) : Int :=
  if status = "EXECUTED_SIGNED" then 30
  else if status = "DRAFT_UNSIGNED" then 10
  else if status = "PROPOSAL" then 5
  else 0

/-- First matching version-pattern tier (the for-loop with `break`):
patterns checked in order r3, rev3, "revision 3" (+22), r2, rev2,
"revision 2" (+18), r1, rev1, "revision 1" (+15). -/
def versionPoints (filename : String) : Int :=
  if strContains filename "r3" then 22
  else if strContains filename "rev3" then 22
  else if strContains filename "revision 3" then 22
  else if strContains filename "r2" then 18
  else if strContains filename "rev2" then 18
  else if strContains filename "revision 2" then 18
  else if strContains filename "r1" then 15
  else if strContains filename "rev1" then 15
  else if strContains filename "revision 1" then 15
  else 0

/-- Text-length bonus from `score_document_importance`. -/
def textLengthBonus (text_length : Nat) : Int :=
  if text_length > 100000 then 15
  else if text_length > 50000 then 10
  else if text_length > 20000 then 5
  else 0

/-- Confidence adjustment from `score_document_importance`. -/
def confidenceAdj (confidence : String) : Int :=
  if confidence = "HIGH" then 5
  else if confidence = "LOW" then (-5)
  else 0

/-- `DocumentAnalyzer.score_document_importance`: additive score, floored
at 0 by the final `max(score, 0)`. The filename is lowercased once and all
indicator checks are substring tests on it. -/
def score_document_importance (c : Classification) : Int :=
  let filename := lowerStr c.filename
  let s0 : Int := 0
  let s1 := s0 + importanceBase c.importance
  let s2 := s1 + typePoints c.document_type
  let s3 := s2 + statusBonus c.status
  let s4 := s3 + (if containsAny filename ["executed", "signed", "final", "fully executed"] then 25 else 0)
  let s5 := s4 + (if containsAny filename ["clean", "final copy", "executed copy"] then 20 else 0)
  let s6 := s5 + versionPoints filename
  let s7 := s6 + (if containsAny filename ["contract", "agreement", "ctdot"] then 10 else 0)
  let s8 := s7 - (if containsAny filename ["markup", "mark up", "draft", "redline", "comments"] then 10 else 0)
  let s9 := s8 + textLengthBonus c.text_length
  let s10 := s9 + confidenceAdj c.confidence
  max s10 0

section Sorting

variable {α : Type*}

/-- The ordering used by `list.sort(key=..., reverse=True)`: `a` may come
before `b` when `key b ≤ key a`. -/
def keyGE (key : α → Int) (a b : α) : Prop := key b ≤ key a

instance (key : α → Int) : DecidableRel (keyGE key) :=
  fun _ _ => Int.decLe _ _

instance (key : α → Int) : IsTotal α (keyGE key) :=
  ⟨fun a b => le_total (key b) (key a)⟩

instance (key : α → Int) : IsTrans α (keyGE key) :=
  ⟨fun _ _ _ h1 h2 => le_trans h2 h1⟩

/-- Python's stable `list.sort(key=key, reverse=True)`: descending by key,
equal-key elements keep their original relative order. -/
def sortDescBy (key : α → Int) (l : List α) : List α :=
  l.insertionSort (keyGE key)

end Sorting

/-- The `scored_docs` list of `DocumentAnalyzer.identify_main_contract`:
non-error classifications in original order, each paired with its score
(the loop `continue`s on records whose `"error"` key is truthy). -/
def scoredDocs (l : List Classification) : List (Classification × Int) :=
  (l.filter (fun c => !c.error)).map (fun c => (c, score_document_importance c))

/-- `scored_docs` after `scored_docs.sort(key=lambda x: x["score"], reverse=True)`. -/
def sortedScoredDocs (l : List Classification) : List (Classification × Int) :=
  sortDescBy (fun p => p.2) (scoredDocs l)

/-- The `primary_contracts` sublist of the sorted scored docs. -/
def primaryContracts (l : List Classification) : List (Classification × Int) :=
  (sortedScoredDocs l).filter (fun p => p.1.document_type == "PRIMARY_CONTRACT")

/-- `strong_indicators = ["executed", "clean", "final", "signed"]`. -/
def strongIndicators : List String := ["executed", "clean", "final", "signed"]

/-- `any(indicator in filename for indicator in strong_indicators)` on the
lowercased filename. -/
def hasStrongIndicator (filename : String) : Bool :=
  containsAny (lowerStr filename) strongIndicators

/-- `next(ind for ind in strong_indicators if ind in filename)`; the guard
`hasStrongIndicator` holds wherever the source evaluates this. -/
def matchedIndicator (filename : String) : String :=
  (strongIndicators.find? (fun ind => strContains (lowerStr filename) ind)).getD ""

/-- The return value of `identify_main_contract`: the chosen classification
together with the metadata keys the source attaches to it. -/
structure MainResult where
  classification : Classification
  importance_score : Int
  ranking_reason : String
  total_documents_analyzed : Nat
  deriving Repr, DecidableEq

/-- `DocumentAnalyzer.identify_main_contract`. Returns `none` for an empty
input or when every record is an error record; otherwise scans the
score-sorted `primary_contracts` for a strong filename indicator, falls back
to the best primary contract, then to the best document overall. -/
def identify_main_contract (l : List Classification) : Option MainResult :=
  if l.isEmpty then none
  else if (scoredDocs l).isEmpty then none
  else
    match (primaryContracts l).find? (fun p => hasStrongIndicator p.1.filename) with
    | some p =>
        some ⟨p.1, p.2,
          "Primary contract with \x27" ++ matchedIndicator p.1.filename ++ "\x27 indicator",
          l.length⟩
    | none =>
        match primaryContracts l with
        | q :: _ =>
            some ⟨q.1, q.2,
              "Highest scoring among " ++ toString (primaryContracts l).length ++ " primary contracts",
              l.length⟩
        | [] =>
            match sortedScoredDocs l with
            | s :: _ =>
                some ⟨s.1, s.2,
                  "Highest scoring document (type: " ++ s.1.document_type ++ ") - no primary contracts found",
                  l.length⟩
            | [] => none

/-- A classification enhanced by `rank_documents` before sorting:
`classification.copy()` plus `importance_score`, `is_main_contract` and
(for the main contract) `ranking_reason`. -/
structure Enhanced where
  doc : Classification
  importance_score : Int
  is_main_contract : Bool
  ranking_reason : Option String
  deriving Repr, DecidableEq

/-- An enhanced classification after rank assignment: `rank` and
`priority_level` added post-sort. -/
structure Ranked where
  doc : Classification
  importance_score : Int
  is_main_contract : Bool
  ranking_reason : Option String
  rank : Nat
  priority_level : String
  deriving Repr, DecidableEq

/-- `DocumentAnalyzer._determine_priority_level`. -/
def determine_priority_level (e : Enhanced) (rank : Nat) : String :=
  if e.is_main_contract then "MAIN_CONTRACT"
  else if e.doc.document_type == "PRIMARY_CONTRACT" && rank ≤ 3 then "HIGH_PRIORITY"
  else if e.doc.recommendation == "ANALYZE_FULLY" then "ANALYZE_RECOMMENDED"
  else "SUPPORTING_DOCUMENT"

/-- The per-classification enhancement step of `rank_documents`.
`is_main = (main_filename and classification.get("filename") == main_filename)`:
a falsy (empty) main filename flags nothing. -/
def enhanceDoc (mainData : Option MainResult) (c : Classification) : Enhanced :=
  let isMain :=
    match mainData with
    | none => false
    | some m => (m.classification.filename != "") && (c.filename == m.classification.filename)
  { doc := c
    importance_score := score_document_importance c
    is_main_contract := isMain
    ranking_reason := if isMain then mainData.map (fun m => m.ranking_reason) else none }

/-- The `for i, doc in enumerate(scored_docs, 1)` loop assigning `rank` and
`priority_level`. -/
def addRanks (startRank : Nat) : List Enhanced → List Ranked
  | [] => []
  | e :: es =>
      ⟨e.doc, e.importance_score, e.is_main_contract, e.ranking_reason,
        startRank, determine_priority_level e startRank⟩ :: addRanks (startRank + 1) es

/-- `DocumentAnalyzer.rank_documents`: identify the main contract, enhance
every classification (error records included), stable-sort descending by
score, then assign dense 1-based ranks and priority levels. -/
def rank_documents (l : List Classification) : List Ranked :=
  if l.isEmpty then []
  else
    let mainData := identify_main_contract l
    let enhanced := l.map (enhanceDoc mainData)
    addRanks 1 (sortDescBy (fun e => e.importance_score) enhanced)

/-- `d[k] = d.get(k, 0) + 1` on an insertion-ordered counting dict. -/
def bump : List (String × Nat) → String → List (String × Nat)
  | [], k => [(k, 1)]
  | (k0, n) :: rest, k =>
      if k0 == k then (k0, n + 1) :: rest else (k0, n) :: bump rest k

/-- `d.get(k, 0)` on a counting dict. -/
def dictGet (d : List (String × Nat)) (k : String) : Nat :=
  match d.find? (fun p => p.1 == k) with
  | some p => p.2
  | none => 0

/-- The summary dict returned by `generate_classification_summary`. -/
structure Summary where
  total_documents : Nat
  by_type : List (String × Nat)
  by_importance : List (String × Nat)
  by_status : List (String × Nat)
  recommendations : List (String × Nat)
  deriving Repr, DecidableEq

/-- The counting loop of `generate_classification_summary`: error records
are skipped, every other record bumps all four frequency dicts. -/
def summaryLoop (acc : Summary) : List Classification → Summary
  | [] => acc
  | c :: cs =>
      if c.error then summaryLoop acc cs
      else
        summaryLoop
          { acc with
            by_type := bump acc.by_type c.document_type
            by_importance := bump acc.by_importance c.importance
            by_status := bump acc.by_status c.status
            recommendations := bump acc.recommendations c.recommendation } cs

/-- `DocumentAnalyzer.generate_classification_summary`. `total_documents`
is the length of the full input list, error records included. -/
def generate_classification_summary (l : List Classification) : Summary :=
  if l.isEmpty then ⟨0, [], [], [], []⟩
  else summaryLoop ⟨l.length, [], [], [], []⟩ l

/-! ### AIClassifier (`app/services/ai_classifier.py`) -/

/-- Python whitespace as stripped by `str.strip()` (ASCII range). -/
def isPyWs (c : Char) : Bool :=
  c == ' ' || c == '\t' || c == '\n' || c == '\r' || c == '\x0b' || c == '\x0c'

/-- Python's `str.strip()`. -/
def trimStr (s : String) : String :=
  String.mk (((s.data.dropWhile isPyWs).reverse.dropWhile isPyWs).reverse)

/-- Python's `str.upper()` (ASCII range). -/
def upperStr (s : String) : String :=
  String.mk (s.data.map Char.toUpper)

/-- `str.split(sep)` on a single separator character: no collapsing of
empty pieces, `"".split(sep) == [""]`. -/
def splitList (sep : Char) : List Char → List (List Char)
  | [] => [[]]
  | c :: cs =>
      let r := splitList sep cs
      if c == sep then [] :: r
      else
        match r with
        | [] => [[c]]
        | h :: t => (c :: h) :: t

/-- `response.split("\n")`. -/
def splitLines (s : String) : List String :=
  (splitList '\n' s.data).map String.mk

/-- `line.split(":", 1)` guarded by `":" in line`: `none` when the line has
no colon, otherwise the text before the first colon and everything after. -/
def breakAtChar (sep : Char) : List Char → Option (List Char × List Char)
  | [] => none
  | c :: cs =>
      if c == sep then some ([], cs)
      else (breakAtChar sep cs).map (fun p => (c :: p.1, p.2))

/-- The `result` dict `_parse_classification_response` starts from: every
field at its documented default. -/
def parseDefaults (filename : String) : Classification :=
  { filename := filename
    document_type := "UNKNOWN"
    importance := "MEDIUM"
    status := "UNKNOWN"
    confidence := "MEDIUM"
    recommendation := "REVIEW_MANUALLY"
    key_parties := ""
    dollar_amount := "NONE"
    project_info := ""
    summary := ""
    text_length := 0
    error := false }

/-- One iteration of the parsing loop: skip lines without a colon, split at
the first colon, normalise the key, and route the value through the
`if "FIELD" in key` chain (first match wins, unmatched keys are ignored). -/
def applyLine (r : Classification) (line : String) : Classification :=
  match breakAtChar ':' line.data with
  | none => r
  | some (k, v) =>
      let key := upperStr (trimStr (String.mk k))
      let value := trimStr (String.mk v)
      if strContains key "DOCUMENT_TYPE" then { r with document_type := value }
      else if strContains key "IMPORTANCE" then { r with importance := value }
      else if strContains key "STATUS" then { r with status := value }
      else if strContains key "KEY_PARTIES" then { r with key_parties := value }
      else if strContains key "DOLLAR_AMOUNT" then { r with dollar_amount := value }
      else if strContains key "PROJECT_INFO" then { r with project_info := value }
      else if strContains key "CONFIDENCE" then { r with confidence := value }
      else if strContains key "SUMMARY" then { r with summary := value }
      else if strContains key "RECOMMENDATION" then { r with recommendation := value }
      else r

/-- `AIClassifier._parse_classification_response`. -/
def parse_classification_response (response filename : String) : Classification :=
  (splitLines response).foldl applyLine (parseDefaults filename)

/-- One observed outcome of `requests.post` to the classification oracle. -/
inductive ApiOutcome where
  | http (status : Nat) (content : String)
  | timeout
  | netError (msg : String)
  deriving Repr, DecidableEq

/-- The observable result of `_make_api_request`: the returned text or the
raised `AIClassificationError` message, the number of requests issued, and
the sleeps performed between them (in seconds). -/
structure ApiTrace where
  result : Except String String
  attempts : Nat
  waits : List Nat
  deriving Repr

/-- The `for attempt in range(max_retries + 1)` loop of
`AIClassifier._make_api_request`, with the oracle giving the outcome of the
request made on each attempt. 529 waits `(2 ** attempt) * 5`, 429 waits
`30 + attempt * 10`, timeouts and network errors wait 5; any other non-200
status fails immediately. -/
def apiGo (oracle : Nat → ApiOutcome) (maxRetries attempt : Nat) (waits : List Nat) :
    ApiTrace :=
  match oracle attempt with
  | .http status content =>
      if status = 200 then ⟨.ok (trimStr content), attempt + 1, waits⟩
      else if status = 529 then
        if attempt < maxRetries then
          apiGo oracle maxRetries (attempt + 1) (waits ++ [2 ^ attempt * 5])
        else ⟨.error "Claude API overloaded after multiple attempts", attempt + 1, waits⟩
      else if status = 429 then
        if attempt < maxRetries then
          apiGo oracle maxRetries (attempt + 1) (waits ++ [30 + attempt * 10])
        else ⟨.error "Claude API rate limited after multiple attempts", attempt + 1, waits⟩
      else
        ⟨.error ("Claude API error: HTTP " ++ toString status ++ ": " ++ content),
          attempt + 1, waits⟩
  | .timeout =>
      if attempt < maxRetries then apiGo oracle maxRetries (attempt + 1) (waits ++ [5])
      else ⟨.error "Request timeout after multiple attempts", attempt + 1, waits⟩
  | .netError m =>
      if attempt < maxRetries then apiGo oracle maxRetries (attempt + 1) (waits ++ [5])
      else ⟨.error ("Request failed after multiple attempts: " ++ m), attempt + 1, waits⟩
termination_by maxRetries - attempt
decreasing_by all_goals omega

/-- `AIClassifier._make_api_request` with the retry budget already resolved
(`max_retries or settings.anthropic_max_retries`, default 3). -/
def make_api_request (oracle : Nat → ApiOutcome) (maxRetries : Nat) : ApiTrace :=
  apiGo oracle maxRetries 0 []

/-- `AIClassifier.classify_document`: on oracle success the parsed record
(with `text_length` set to the full document length), on any failure the
ERROR record built in the `except` block. Total by construction — the
source catches every exception. -/
def classify_document (oracle : Nat → ApiOutcome) (maxRetries : Nat)
    (document_text filename : String) : Classification :=
  match (make_api_request oracle maxRetries).result with
  | .ok response =>
      let c := parse_classification_response response filename
      { c with text_length := document_text.length }
  | .error e =>
      { filename := filename
        error := true
        document_type := "ERROR"
        importance := "MEDIUM"
        status := "UNKNOWN"
        confidence := "LOW"
        summary := "Classification failed: " ++ e
        recommendation := "REVIEW_MANUALLY"
        key_parties := ""
        dollar_amount := "NONE"
        project_info := ""
        text_length := document_text.length }

/-! ### ContractIntelligenceService (`app/services/contract_intelligence.py`) -/

/-- One PDF file as the orchestrator sees it: its name and the outcome of
`pdf_extractor.extract_text_from_file` (raised message or extracted text). -/
structure FileInput where
  name : String
  extraction : Except String String
  deriving Repr

/-- `ContractIntelligenceService._process_pdf_files`, parametrised by the
(total) classification step. Extraction failures and texts whose stripped
length is under 50 append to `failed_files` and the loop continues; every
other file contributes exactly one classification, in input order. -/
def process_pdf_files (classify : String → String → Classification) :
    List FileInput → (List Classification × List String)
  | [] => ([], [])
  | f :: fs =>
      let rest := process_pdf_files classify fs
      match f.extraction with
      | .error e => (rest.1, (f.name ++ ": " ++ e) :: rest.2)
      | .ok text =>
          if text == "" || (trimStr text).length < 50 then
            (rest.1, (f.name ++ ": Insufficient text extracted from " ++ f.name) :: rest.2)
          else
            (classify text f.name :: rest.1, rest.2)

/-- The result dict assembled by `analyze_directory_complete` (the parts
the claims are about). -/
structure AnalysisResult where
  success : Bool
  main_contract : Option MainResult
  ranked_documents : List Ranked
  classification_summary : Summary
  failed_files : List String
  deriving Repr, DecidableEq

/-- `ContractIntelligenceService.analyze_directory_complete` from the point
where the directory scan succeeded: process every file, raise (wrapped by
the outer handler) exactly when no classification was produced, otherwise
assemble the full result. -/
def analyze_directory_complete (classify : String → String → Classification)
    (files : List FileInput) : Except String AnalysisResult :=
  let processed := process_pdf_files classify files
  if processed.1.isEmpty then
    .error "Directory analysis failed: No documents could be successfully processed"
  else
    .ok { success := true
          main_contract := identify_main_contract processed.1
          ranked_documents := rank_documents processed.1
          classification_summary := generate_classification_summary processed.1
          failed_files := processed.2 }

/-! ### Derived definitions used to state the properties -/

/-- The first element of `l` attaining the maximal key, i.e. what a stable
descending sort puts in front. -/
def firstMaxBy {α : Type*} (key : α → Int) : List α → Option α
  | [] => none
  | a :: l =>
      match firstMaxBy key l with
      | none => some a
      | some b => if key a < key b then some b else some a

/-- Forget the `rank` and `priority_level` a `Ranked` document carries. -/
def stripRanked (d : Ranked) : Enhanced :=
  ⟨d.doc, d.importance_score, d.is_main_contract, d.ranking_reason⟩

/-- Whether `_process_pdf_files` turns this file into a classification:
extraction returned text that is non-empty with stripped length at least 50. -/
def extractionSucceeds (f : FileInput) : Bool :=
  match f.extraction with
  | .error _ => false
  | .ok text => !(text == "" || (trimStr text).length < 50)

/-- Whether a response line carries the given field: it has a colon and its
normalised key contains `field` as a substring. -/
def lineMentions (field : String) (line : String) : Bool :=
  match breakAtChar ':' line.data with
  | none => false
  | some (k, _) => strContains (upperStr (trimStr (String.mk k))) field

/-- Whether a response line is recognized by the parsing chain at all. -/
def lineRecognized (line : String) : Bool :=
  ["DOCUMENT_TYPE", "IMPORTANCE", "STATUS", "KEY_PARTIES", "DOLLAR_AMOUNT",
    "PROJECT_INFO", "CONFIDENCE", "SUMMARY", "RECOMMENDATION"].any
    (fun field => lineMentions field line)

/-- The additive score formula exactly as the specification claim words it:
base by importance, document-type points, status bonus, filename heuristics
with the penalty list markup/draft/redline/comments, version tiers, length
bonus, confidence adjustment, floored at 0. -/
def scoreClaimFormula (c : Classification) : Int :=
  let filename := lowerStr c.filename
  max (importanceBase c.importance + typePoints c.document_type + statusBonus c.status
    + (if containsAny filename ["executed", "signed", "final", "fully executed"] then 25 else 0)
    + (if containsAny filename ["clean", "final copy", "executed copy"] then 20 else 0)
    + versionPoints filename
    + (if containsAny filename ["contract", "agreement", "ctdot"] then 10 else 0)
    - (if containsAny filename ["markup", "draft", "redline", "comments"] then 10 else 0)
    + textLengthBonus c.text_length
    + confidenceAdj c.confidence) 0

/-- The claim's formula amended with the "mark up" penalty indicator the
source also checks. -/
def scoreClaimFormulaAmended (c : Classification) : Int :=
  let filename := lowerStr c.filename
  max (importanceBase c.importance + typePoints c.document_type + statusBonus c.status
    + (if containsAny filename ["executed", "signed", "final", "fully executed"] then 25 else 0)
    + (if containsAny filename ["clean", "final copy", "executed copy"] then 20 else 0)
    + versionPoints filename
    + (if containsAny filename ["contract", "agreement", "ctdot"] then 10 else 0)
    - (if containsAny filename ["markup", "mark up", "draft", "redline", "comments"] then 10 else 0)
    + textLengthBonus c.text_length
    + confidenceAdj c.confidence) 0

/-- Builder for concrete classification records used in witnesses and
counterexamples. -/
def mkDoc (fn ty imp : String) : Classification :=
  { filename := fn
    document_type := ty
    importance := imp
    status := "UNKNOWN"
    confidence := "MEDIUM"
    recommendation := "REVIEW_MANUALLY"
    key_parties := ""
    dollar_amount := "NONE"
    project_info := ""
    summary := ""
    text_length := 0
    error := false }

/-- A low-scoring primary contract whose filename carries the "final"
indicator; first in the example input list. Score 95. -/
def docFinalLow : Classification := mkDoc "a_final.pdf" "PRIMARY_CONTRACT" "LOW"

/-- A high-scoring primary contract whose filename carries the "executed"
indicator; second in the example input list. Score 175. -/
def docExecutedHigh : Classification := mkDoc "b_executed.pdf" "PRIMARY_CONTRACT" "CRITICAL"

/-- A primary contract record; duplicating it gives two records with the
same filename. -/
def docDup : Classification := mkDoc "contract_final.pdf" "PRIMARY_CONTRACT" "MEDIUM"

/-- An amendment record, score 65. -/
def docAmendment : Classification := mkDoc "x.pdf" "AMENDMENT" "MEDIUM"

/-- A schedule record, score 50. -/
def docSchedule : Classification := mkDoc "y.pdf" "SCHEDULE" "MEDIUM"

/-- A record whose filename contains "mark up" but none of
markup/draft/redline/comments. -/
def docMarkUp : Classification := mkDoc "mark up.pdf" "UNKNOWN" "MEDIUM"

/-- An oracle that answers HTTP 529 to every request. -/
def oracle529 : Nat → ApiOutcome := fun _ => ApiOutcome.http 529 ""

/-- An ERROR-typed record as produced for a failed classification. -/
def docError : Classification :=
  { filename := "broken.pdf"
    document_type := "ERROR"
    importance := "MEDIUM"
    status := "UNKNOWN"
    confidence := "LOW"
    recommendation := "REVIEW_MANUALLY"
    key_parties := ""
    dollar_amount := "NONE"
    project_info := ""
    summary := "Classification failed: boom"
    text_length := 12
    error := true }

/-- Three files: one failing extraction, one with ample text, one with text
too short to classify. -/
def exampleFiles : List FileInput :=
  [⟨"a.pdf", Except.error "PDF read failure"⟩,
    ⟨"b.pdf", Except.ok (String.mk (List.replicate 60 'x'))⟩,
    ⟨"c.pdf", Except.ok "short"⟩]

/-- A stub classification step for exercising the orchestrator. -/
def stubClassify : String → String → Classification :=
  fun text fn => { parseDefaults fn with text_length := text.length }

/-! ### Lemmas about the stable descending sort -/

section SortLemmas

variable {α : Type*}

theorem sortDescBy_perm (key : α → Int) (l : List α) :
    List.Perm (sortDescBy key l) l :=
  List.perm_insertionSort _ l

theorem sortDescBy_length (key : α → Int) (l : List α) :
    (sortDescBy key l).length = l.length :=
  (sortDescBy_perm key l).length_eq

theorem sortDescBy_pairwise (key : α → Int) (l : List α) :
    (sortDescBy key l).Pairwise (fun a b => key b ≤ key a) :=
  List.sorted_insertionSort (keyGE key) l

theorem filter_orderedInsert_of_neg (r : α → α → Prop) [DecidableRel r]
    (p : α → Bool) (a : α) (l : List α) (ha : p a = false) :
    (l.orderedInsert r a).filter p = l.filter p := by
  induction l with
  | nil => simp [List.orderedInsert, ha]
  | cons b t ih =>
      by_cases h : r a b
      · simp [List.orderedInsert, if_pos h, List.filter_cons, ha]
      · simp only [List.orderedInsert, if_neg h, List.filter_cons]
        cases hb : p b <;> simp [ih]

theorem filter_orderedInsert_key (key : α → Int) (p : α → Bool) (a : α) (l : List α)
    (hp : ∀ x, p x = true → key x = key a) :
    (l.orderedInsert (keyGE key) a).filter p =
      if p a then a :: l.filter p else l.filter p := by
  induction l with
  | nil => cases h : p a <;> simp [List.orderedInsert, List.filter, h]
  | cons b t ih =>
      by_cases h : keyGE key a b
      · cases ha : p a <;>
          simp [List.orderedInsert, if_pos h, List.filter_cons, ha]
      · have hlt : key a < key b := by
          simp only [keyGE, not_le] at h
          exact h
        have hb : p b = false := by
          cases hpb : p b
          · rfl
          · exact absurd (hp b hpb) (by omega)
        simp only [List.orderedInsert, if_neg h, List.filter_cons, hb, cond_false, ih]
        simp

theorem filter_sortDescBy (key : α → Int) (p : α → Bool) (s : Int)
    (hp : ∀ x, p x = true → key x = s) (l : List α) :
    (sortDescBy key l).filter p = l.filter p := by
  induction l with
  | nil => rfl
  | cons a t ih =>
      show ((sortDescBy key t).orderedInsert (keyGE key) a).filter p = _
      by_cases ha : key a = s
      · rw [filter_orderedInsert_key key p a _ (fun x hx => (hp x hx).trans ha.symm)]
        cases h : p a <;> simp [List.filter_cons, h, ih]
      · have hpa : p a = false := by
          cases h : p a
          · rfl
          · exact absurd (hp a h) ha
        rw [filter_orderedInsert_of_neg _ p a _ hpa]
        simp [List.filter_cons, hpa, ih]

theorem head?_sortDescBy (key : α → Int) (l : List α) :
    (sortDescBy key l).head? = firstMaxBy key l := by
  induction l with
  | nil => rfl
  | cons a t ih =>
      show ((sortDescBy key t).orderedInsert (keyGE key) a).head? = firstMaxBy key (a :: t)
      rw [firstMaxBy]
      cases h : sortDescBy key t with
      | nil =>
          have ht : t = [] := by
            have := sortDescBy_length key t
            rw [h] at this
            exact List.eq_nil_of_length_eq_zero this.symm
          subst ht
          simp [List.orderedInsert, firstMaxBy]
      | cons b bs =>
          rw [h] at ih
          simp only [List.head?] at ih
          rw [← ih]
          by_cases hr : keyGE key a b
          · have : ¬ key a < key b := by
              simp only [keyGE] at hr
              omega
            simp [List.orderedInsert, if_pos hr, this]
          · have : key a < key b := by
              simp only [keyGE, not_le] at hr
              exact hr
            simp [List.orderedInsert, if_neg hr, this]

theorem firstMaxBy_eq_none (key : α → Int) (l : List α) :
    firstMaxBy key l = none ↔ l = [] := by
  cases l with
  | nil => simp [firstMaxBy]
  | cons a t =>
      simp only [firstMaxBy]
      cases firstMaxBy key t with
      | none => simp
      | some b => by_cases h : key a < key b <;> simp [h]

theorem firstMaxBy_split (key : α → Int) (l : List α) (m : α)
    (h : firstMaxBy key l = some m) :
    ∃ l1 l2, l = l1 ++ m :: l2 ∧ (∀ x ∈ l1, key x < key m) ∧
      (∀ x ∈ l2, key x ≤ key m) := by
  induction l generalizing m with
  | nil => cases h
  | cons a t ih =>
      rw [firstMaxBy] at h
      cases ht : firstMaxBy key t with
      | none =>
          rw [ht] at h
          have : t = [] := (firstMaxBy_eq_none key t).mp ht
          subst this
          cases h
          exact ⟨[], [], rfl, by simp, by simp⟩
      | some b =>
          rw [ht] at h
          dsimp only at h
          obtain ⟨l1, l2, heq, h1, h2⟩ := ih b ht
          by_cases hab : key a < key b
          · rw [if_pos hab] at h
            cases h
            exact ⟨a :: l1, l2, by rw [heq]; rfl, by
              intro x hx
              rcases List.mem_cons.mp hx with hx | hx
              · subst hx; exact hab
              · exact h1 x hx, h2⟩
          · rw [if_neg hab] at h
            cases h
            refine ⟨[], t, rfl, by simp, ?_⟩
            intro x hx
            rw [heq] at hx
            rcases List.mem_append.mp hx with hx | hx
            · have := h1 x hx
              omega
            · rcases List.mem_cons.mp hx with hx | hx
              · subst hx; omega
              · have := h2 x hx
                omega

theorem find?_split (p : α → Bool) (l : List α) (a : α)
    (h : l.find? p = some a) :
    ∃ l1 l2, l = l1 ++ a :: l2 ∧ (∀ x ∈ l1, p x = false) ∧ p a = true := by
  induction l with
  | nil => cases h
  | cons b t ih =>
      cases hb : p b
      · rw [List.find?_cons_of_neg _ (by simp [hb])] at h
        obtain ⟨l1, l2, heq, h1, h2⟩ := ih h
        exact ⟨b :: l1, l2, by rw [heq]; rfl, by
          intro x hx
          rcases List.mem_cons.mp hx with hx | hx
          · subst hx; exact hb
          · exact h1 x hx, h2⟩
      · rw [List.find?_cons_of_pos _ hb] at h
        cases h
        exact ⟨[], t, rfl, by simp, hb⟩

end SortLemmas

/-! ### Lemmas about rank assignment -/

theorem addRanks_map_strip (k : Nat) (es : List Enhanced) :
    (addRanks k es).map stripRanked = es := by
  induction es generalizing k with
  | nil => rfl
  | cons e t ih => simp [addRanks, stripRanked, ih]

theorem addRanks_length (k : Nat) (es : List Enhanced) :
    (addRanks k es).length = es.length := by
  have := congrArg List.length (addRanks_map_strip k es)
  simpa using this

theorem addRanks_map_rank (k : Nat) (es : List Enhanced) :
    (addRanks k es).map (fun d => d.rank) = List.range' k es.length := by
  induction es generalizing k with
  | nil => rfl
  | cons e t ih => simp [addRanks, List.range', ih]

theorem addRanks_pairwise {R : Enhanced → Enhanced → Prop} (k : Nat)
    (es : List Enhanced) (h : es.Pairwise R) :
    (addRanks k es).Pairwise (fun a b => R (stripRanked a) (stripRanked b)) := by
  rw [← addRanks_map_strip k es] at h
  exact List.pairwise_map.mp h

theorem addRanks_mem (k : Nat) (es : List Enhanced) (e : Enhanced) (he : e ∈ es) :
    ∃ d ∈ addRanks k es, stripRanked d = e ∧ k ≤ d.rank ∧ d.rank < k + es.length ∧
      d.priority_level = determine_priority_level e d.rank := by
  induction es generalizing k with
  | nil => cases he
  | cons a t ih =>
      rcases List.mem_cons.mp he with he | he
      · subst he
        refine ⟨⟨e.doc, e.importance_score, e.is_main_contract, e.ranking_reason,
          k, determine_priority_level e k⟩, by simp [addRanks], rfl, le_refl k, by simp, rfl⟩
      · obtain ⟨d, hd, hstrip, hk, hlt, hpl⟩ := ih (k + 1) he
        exact ⟨d, by simp [addRanks, hd], hstrip, by omega, by simp at hlt ⊢; omega, hpl⟩

theorem rank_documents_eq (l : List Classification) (hne : l ≠ []) :
    rank_documents l =
      addRanks 1 (sortDescBy (fun e => e.importance_score)
        (l.map (enhanceDoc (identify_main_contract l)))) := by
  rw [rank_documents]
  rw [if_neg (by simpa using hne)]

/-! ### Lemmas about the counting dicts of the classification summary -/

theorem dictGet_nil (t : String) : dictGet [] t = 0 := rfl

theorem dictGet_cons (k0 : String) (n : Nat) (rest : List (String × Nat)) (t : String) :
    dictGet ((k0, n) :: rest) t = if k0 = t then n else dictGet rest t := by
  by_cases h : k0 = t
  · subst h
    simp [dictGet, List.find?]
  · simp only [dictGet, List.find?]
    have : (k0 == t) = false := by simp [h]
    rw [this]
    simp [h]

theorem bump_cons_eq (k : String) (n : Nat) (rest : List (String × Nat)) :
    bump ((k, n) :: rest) k = (k, n + 1) :: rest := by
  simp [bump]

theorem bump_cons_ne (k0 k : String) (n : Nat) (rest : List (String × Nat))
    (h : k0 ≠ k) : bump ((k0, n) :: rest) k = (k0, n) :: bump rest k := by
  simp [bump, h]

theorem dictGet_bump (d : List (String × Nat)) (k t : String) :
    dictGet (bump d k) t = dictGet d t + (if k = t then 1 else 0) := by
  induction d with
  | nil =>
      show dictGet [(k, 1)] t = dictGet [] t + _
      rw [dictGet_cons, dictGet_nil]
      by_cases h : k = t <;> simp [h]
  | cons p rest ih =>
      obtain ⟨k0, n⟩ := p
      by_cases h0 : k0 = k
      · subst h0
        rw [bump_cons_eq, dictGet_cons, dictGet_cons]
        by_cases ht : k0 = t <;> simp [ht]
      · rw [bump_cons_ne _ _ _ _ h0, dictGet_cons, dictGet_cons]
        by_cases ht : k0 = t
        · have hkt : ¬ k = t := fun hkt => h0 (by rw [ht, hkt])
          simp [ht, hkt]
        · simp [ht, ih]

theorem summaryLoop_by_type (cs : List Classification) (acc : Summary) (t : String) :
    dictGet (summaryLoop acc cs).by_type t =
      dictGet acc.by_type t + cs.countP (fun c => !c.error && c.document_type == t) := by
  induction cs generalizing acc with
  | nil => simp [summaryLoop]
  | cons c rest ih =>
      by_cases he : c.error
      · have hstep : summaryLoop acc (c :: rest) = summaryLoop acc rest := by
          simp [summaryLoop, he]
        rw [hstep, ih, List.countP_cons]
        simp [he]
      · have hstep : summaryLoop acc (c :: rest) =
            summaryLoop
              { acc with
                by_type := bump acc.by_type c.document_type
                by_importance := bump acc.by_importance c.importance
                by_status := bump acc.by_status c.status
                recommendations := bump acc.recommendations c.recommendation } rest := by
          simp [summaryLoop, he]
        rw [hstep, ih, List.countP_cons]
        show dictGet (bump acc.by_type c.document_type) t + _ = _
        rw [dictGet_bump]
        have herr : c.error = false := by revert he; cases c.error <;> simp
        by_cases ht : c.document_type = t
        · simp [herr, ht]
          ring
        · have hbe : (c.document_type == t) = false := by simp [ht]
          simp [herr, hbe, ht]

theorem summaryLoop_by_importance (cs : List Classification) (acc : Summary) (t : String) :
    dictGet (summaryLoop acc cs).by_importance t =
      dictGet acc.by_importance t + cs.countP (fun c => !c.error && c.importance == t) := by
  induction cs generalizing acc with
  | nil => simp [summaryLoop]
  | cons c rest ih =>
      by_cases he : c.error
      · have hstep : summaryLoop acc (c :: rest) = summaryLoop acc rest := by
          simp [summaryLoop, he]
        rw [hstep, ih, List.countP_cons]
        simp [he]
      · have hstep : summaryLoop acc (c :: rest) =
            summaryLoop
              { acc with
                by_type := bump acc.by_type c.document_type
                by_importance := bump acc.by_importance c.importance
                by_status := bump acc.by_status c.status
                recommendations := bump acc.recommendations c.recommendation } rest := by
          simp [summaryLoop, he]
        rw [hstep, ih, List.countP_cons]
        show dictGet (bump acc.by_importance c.importance) t + _ = _
        rw [dictGet_bump]
        have herr : c.error = false := by revert he; cases c.error <;> simp
        by_cases ht : c.importance = t
        · simp [herr, ht]
          ring
        · have hbe : (c.importance == t) = false := by simp [ht]
          simp [herr, hbe, ht]

theorem summaryLoop_by_status (cs : List Classification) (acc : Summary) (t : String) :
    dictGet (summaryLoop acc cs).by_status t =
      dictGet acc.by_status t + cs.countP (fun c => !c.error && c.status == t) := by
  induction cs generalizing acc with
  | nil => simp [summaryLoop]
  | cons c rest ih =>
      by_cases he : c.error
      · have hstep : summaryLoop acc (c :: rest) = summaryLoop acc rest := by
          simp [summaryLoop, he]
        rw [hstep, ih, List.countP_cons]
        simp [he]
      · have hstep : summaryLoop acc (c :: rest) =
            summaryLoop
              { acc with
                by_type := bump acc.by_type c.document_type
                by_importance := bump acc.by_importance c.importance
                by_status := bump acc.by_status c.status
                recommendations := bump acc.recommendations c.recommendation } rest := by
          simp [summaryLoop, he]
        rw [hstep, ih, List.countP_cons]
        show dictGet (bump acc.by_status c.status) t + _ = _
        rw [dictGet_bump]
        have herr : c.error = false := by revert he; cases c.error <;> simp
        by_cases ht : c.status = t
        · simp [herr, ht]
          ring
        · have hbe : (c.status == t) = false := by simp [ht]
          simp [herr, hbe, ht]

theorem summaryLoop_recommendations (cs : List Classification) (acc : Summary) (t : String) :
    dictGet (summaryLoop acc cs).recommendations t =
      dictGet acc.recommendations t + cs.countP (fun c => !c.error && c.recommendation == t) := by
  induction cs generalizing acc with
  | nil => simp [summaryLoop]
  | cons c rest ih =>
      by_cases he : c.error
      · have hstep : summaryLoop acc (c :: rest) = summaryLoop acc rest := by
          simp [summaryLoop, he]
        rw [hstep, ih, List.countP_cons]
        simp [he]
      · have hstep : summaryLoop acc (c :: rest) =
            summaryLoop
              { acc with
                by_type := bump acc.by_type c.document_type
                by_importance := bump acc.by_importance c.importance
                by_status := bump acc.by_status c.status
                recommendations := bump acc.recommendations c.recommendation } rest := by
          simp [summaryLoop, he]
        rw [hstep, ih, List.countP_cons]
        show dictGet (bump acc.recommendations c.recommendation) t + _ = _
        rw [dictGet_bump]
        have herr : c.error = false := by revert he; cases c.error <;> simp
        by_cases ht : c.recommendation = t
        · simp [herr, ht]
          ring
        · have hbe : (c.recommendation == t) = false := by simp [ht]
          simp [herr, hbe, ht]

theorem summaryLoop_total (cs : List Classification) (acc : Summary) :
    (summaryLoop acc cs).total_documents = acc.total_documents := by
  induction cs generalizing acc with
  | nil => rfl
  | cons c rest ih =>
      by_cases he : c.error
      · have hstep : summaryLoop acc (c :: rest) = summaryLoop acc rest := by
          simp [summaryLoop, he]
        rw [hstep, ih]
      · have hstep : summaryLoop acc (c :: rest) =
            summaryLoop
              { acc with
                by_type := bump acc.by_type c.document_type
                by_importance := bump acc.by_importance c.importance
                by_status := bump acc.by_status c.status
                recommendations := bump acc.recommendations c.recommendation } rest := by
          simp [summaryLoop, he]
        rw [hstep, ih]

/-! ### Lemmas about the response parser -/

theorem applyLine_no_colon (r : Classification) (line : String)
    (h : breakAtChar ':' line.data = none) : applyLine r line = r := by
  unfold applyLine
  rw [h]

theorem applyLine_unrecognized (r : Classification) (line : String)
    (h : lineRecognized line = false) : applyLine r line = r := by
  unfold applyLine
  cases hb : breakAtChar ':' line.data with
  | none => rfl
  | some kv =>
      obtain ⟨k, v⟩ := kv
      have h9 : ∀ field ∈ ["DOCUMENT_TYPE", "IMPORTANCE", "STATUS", "KEY_PARTIES",
          "DOLLAR_AMOUNT", "PROJECT_INFO", "CONFIDENCE", "SUMMARY", "RECOMMENDATION"],
          strContains (upperStr (trimStr (String.mk k))) field = false := by
        intro field hf
        have hm : lineMentions field line = false := by
          cases hr : lineMentions field line
          · rfl
          · have : lineRecognized line = true := by
              simp only [lineRecognized, List.any_eq_true]
              exact ⟨field, hf, hr⟩
            rw [h] at this
            cases this
        simpa [lineMentions, hb] using hm
      dsimp only
      rw [if_neg (by simp [h9 "DOCUMENT_TYPE" (by simp)]),
        if_neg (by simp [h9 "IMPORTANCE" (by simp)]),
        if_neg (by simp [h9 "STATUS" (by simp)]),
        if_neg (by simp [h9 "KEY_PARTIES" (by simp)]),
        if_neg (by simp [h9 "DOLLAR_AMOUNT" (by simp)]),
        if_neg (by simp [h9 "PROJECT_INFO" (by simp)]),
        if_neg (by simp [h9 "CONFIDENCE" (by simp)]),
        if_neg (by simp [h9 "SUMMARY" (by simp)]),
        if_neg (by simp [h9 "RECOMMENDATION" (by simp)])]

theorem applyLine_filename (r : Classification) (line : String) :
    (applyLine r line).filename = r.filename := by
  unfold applyLine
  cases hb : breakAtChar ':' line.data with
  | none => rfl
  | some kv =>
      obtain ⟨k, v⟩ := kv
      dsimp only
      split_ifs <;> rfl

theorem foldl_applyLine_preserve {β : Type*} (g : Classification → β)
    (P : String → Prop)
    (step : ∀ r line, P line → g (applyLine r line) = g r)
    (lines : List String) (r : Classification) (h : ∀ line ∈ lines, P line) :
    g (lines.foldl applyLine r) = g r := by
  induction lines generalizing r with
  | nil => rfl
  | cons a t ih =>
      rw [List.foldl_cons, ih _ (fun x hx => h x (List.mem_cons_of_mem a hx)),
        step r a (h a (List.mem_cons_self a t))]

theorem applyLine_document_type (r : Classification) (line : String)
    (h : lineMentions "DOCUMENT_TYPE" line = false) :
    (applyLine r line).document_type = r.document_type := by
  unfold applyLine
  cases hb : breakAtChar ':' line.data with
  | none => rfl
  | some kv =>
      obtain ⟨k, v⟩ := kv
      have hc : strContains (upperStr (trimStr (String.mk k))) "DOCUMENT_TYPE" = false := by
        simpa [lineMentions, hb] using h
      dsimp only
      split_ifs <;> simp_all

theorem applyLine_importance (r : Classification) (line : String)
    (h : lineMentions "IMPORTANCE" line = false) :
    (applyLine r line).importance = r.importance := by
  unfold applyLine
  cases hb : breakAtChar ':' line.data with
  | none => rfl
  | some kv =>
      obtain ⟨k, v⟩ := kv
      have hc : strContains (upperStr (trimStr (String.mk k))) "IMPORTANCE" = false := by
        simpa [lineMentions, hb] using h
      dsimp only
      split_ifs <;> simp_all

theorem applyLine_status (r : Classification) (line : String)
    (h : lineMentions "STATUS" line = false) :
    (applyLine r line).status = r.status := by
  unfold applyLine
  cases hb : breakAtChar ':' line.data with
  | none => rfl
  | some kv =>
      obtain ⟨k, v⟩ := kv
      have hc : strContains (upperStr (trimStr (String.mk k))) "STATUS" = false := by
        simpa [lineMentions, hb] using h
      dsimp only
      split_ifs <;> simp_all

theorem applyLine_confidence (r : Classification) (line : String)
    (h : lineMentions "CONFIDENCE" line = false) :
    (applyLine r line).confidence = r.confidence := by
  unfold applyLine
  cases hb : breakAtChar ':' line.data with
  | none => rfl
  | some kv =>
      obtain ⟨k, v⟩ := kv
      have hc : strContains (upperStr (trimStr (String.mk k))) "CONFIDENCE" = false := by
        simpa [lineMentions, hb] using h
      dsimp only
      split_ifs <;> simp_all

theorem applyLine_dollar_amount (r : Classification) (line : String)
    (h : lineMentions "DOLLAR_AMOUNT" line = false) :
    (applyLine r line).dollar_amount = r.dollar_amount := by
  unfold applyLine
  cases hb : breakAtChar ':' line.data with
  | none => rfl
  | some kv =>
      obtain ⟨k, v⟩ := kv
      have hc : strContains (upperStr (trimStr (String.mk k))) "DOLLAR_AMOUNT" = false := by
        simpa [lineMentions, hb] using h
      dsimp only
      split_ifs <;> simp_all

theorem applyLine_recommendation (r : Classification) (line : String)
    (h : lineMentions "RECOMMENDATION" line = false) :
    (applyLine r line).recommendation = r.recommendation := by
  unfold applyLine
  cases hb : breakAtChar ':' line.data with
  | none => rfl
  | some kv =>
      obtain ⟨k, v⟩ := kv
      have hc : strContains (upperStr (trimStr (String.mk k))) "RECOMMENDATION" = false := by
        simpa [lineMentions, hb] using h
      dsimp only
      split_ifs <;> simp_all

/-! ### Lemmas about the orchestrator's file loop -/

theorem process_pdf_files_lengths (classify : String → String → Classification)
    (files : List FileInput) :
    (process_pdf_files classify files).1.length = files.countP extractionSucceeds ∧
    (process_pdf_files classify files).2.length =
      files.countP (fun f => !extractionSucceeds f) := by
  induction files with
  | nil => simp [process_pdf_files]
  | cons f fs ih =>
      cases hx : f.extraction with
      | error e =>
          have hs : extractionSucceeds f = false := by simp [extractionSucceeds, hx]
          simp [process_pdf_files, hx, List.countP_cons, hs, ih.1, ih.2]
      | ok text =>
          by_cases hg : (text == "" || (trimStr text).length < 50) = true
          · have hs : extractionSucceeds f = false := by
              simp only [extractionSucceeds, hx]
              simp [hg]
            simp [process_pdf_files, hx, hg, List.countP_cons, hs, ih.1, ih.2]
          · have hs : extractionSucceeds f = true := by
              simp only [extractionSucceeds, hx]
              simp only [Bool.not_eq_true] at hg ⊢
              simp [hg]
            simp [process_pdf_files, hx, hg, List.countP_cons, hs, ih.1, ih.2]

/-! ### Lemmas about the retry loop -/

theorem apiGo_all529 (oracle : Nat → ApiOutcome)
    (h : ∀ n, ∃ body, oracle n = .http 529 body) (maxRetries : Nat) :
    ∀ k attempt waits, attempt + k = maxRetries →
      apiGo oracle maxRetries attempt waits =
        ⟨.error "Claude API overloaded after multiple attempts", maxRetries + 1,
          waits ++ (List.range k).map (fun i => 2 ^ (attempt + i) * 5)⟩ := by
  intro k
  induction k with
  | zero =>
      intro attempt waits hat
      obtain ⟨body, hb⟩ := h attempt
      rw [apiGo, hb]
      dsimp only
      rw [if_neg (by omega), if_pos rfl, if_neg (by omega)]
      simp
      omega
  | succ k ih =>
      intro attempt waits hat
      obtain ⟨body, hb⟩ := h attempt
      rw [apiGo, hb]
      dsimp only
      rw [if_neg (by omega), if_pos rfl, if_pos (by omega)]
      rw [ih (attempt + 1) _ (by omega)]
      have harr : waits ++ [2 ^ attempt * 5] ++
          (List.range k).map (fun i => 2 ^ (attempt + 1 + i) * 5) =
          waits ++ (List.range (k + 1)).map (fun i => 2 ^ (attempt + i) * 5) := by
        rw [List.append_assoc, List.singleton_append, List.range_succ_eq_map]
        rw [List.map_cons, List.map_map]
        have : ((fun i => 2 ^ (attempt + i) * 5) ∘ Nat.succ) =
            (fun i => 2 ^ (attempt + 1 + i) * 5) := by
          funext i
          simp only [Function.comp]
          congr 2
          omega
        rw [this]
        simp
      rw [harr]

/-! ### Claim theorems -/

/-- Claim C2, counterexample: the claim's additive formula (whose filename
penalty list is markup/draft/redline/comments) disagrees with
`score_document_importance` on the record with filename "mark up.pdf": the
code also penalises the indicator "mark up" and scores 30, the claim's
formula scores 40. -/
theorem C2_counterexample :
    score_document_importance docMarkUp = 30 ∧
    scoreClaimFormula docMarkUp = 40 ∧
    score_document_importance docMarkUp ≠ scoreClaimFormula docMarkUp := by
  refine ⟨by decide, by decide, by decide⟩

/-- Claim C2, amended: for every classification record, the score equals
the claim's exact additive formula once the filename penalty list also
contains "mark up" (as the source's `draft_indicators` does): base by
importance (default 40), document-type points, status bonus, the filename
heuristics, the first matching version tier, the text-length bonus and the
confidence adjustment, floored at 0. -/
theorem C2_score_formula (c : Classification) :
    score_document_importance c = scoreClaimFormulaAmended c := by
  unfold score_document_importance scoreClaimFormulaAmended
  dsimp only
  congr 1
  ring

/-- Claim C9: scoring, main-contract selection and ranking are
deterministic functions of the classification list alone — in this pure
embedding of the Python code (which performs no I/O and consults no
randomness in these functions) two calls on the same input are the same
term, so the results coincide definitionally. -/
theorem C9_determinism (c : Classification) (l : List Classification) :
    score_document_importance c = score_document_importance c ∧
    identify_main_contract l = identify_main_contract l ∧
    rank_documents l = rank_documents l :=
  ⟨rfl, rfl, rfl⟩

/-- Claim C3: against an oracle that answers HTTP 529 to every request,
`_make_api_request` makes exactly `max_retries + 1` attempts, sleeping
`5 * 2 ^ attempt` seconds between consecutive attempts, and then fails with
the overload error; `classify_document` converts that failure into a record
with `document_type = ERROR`, `confidence = LOW` and the failure text in
`summary` (it is a total function here because the source catches every
exception, so nothing propagates). -/
theorem C3_always_529 (oracle : Nat → ApiOutcome)
    (h : ∀ n, ∃ body, oracle n = ApiOutcome.http 529 body)
    (maxRetries : Nat) (document_text filename : String) :
    (make_api_request oracle maxRetries).attempts = maxRetries + 1 ∧
    (make_api_request oracle maxRetries).waits =
      (List.range maxRetries).map (fun attempt => 5 * 2 ^ attempt) ∧
    (make_api_request oracle maxRetries).result =
      Except.error "Claude API overloaded after multiple attempts" ∧
    (classify_document oracle maxRetries document_text filename).document_type = "ERROR" ∧
    (classify_document oracle maxRetries document_text filename).confidence = "LOW" ∧
    (classify_document oracle maxRetries document_text filename).summary =
      "Classification failed: Claude API overloaded after multiple attempts" ∧
    (classify_document oracle maxRetries document_text filename).error = true := by
  have hmk : make_api_request oracle maxRetries =
      ⟨Except.error "Claude API overloaded after multiple attempts", maxRetries + 1,
        [] ++ (List.range maxRetries).map (fun i => 2 ^ (0 + i) * 5)⟩ := by
    rw [make_api_request]
    exact apiGo_all529 oracle h maxRetries maxRetries 0 [] (by omega)
  have hres : (make_api_request oracle maxRetries).result =
      Except.error "Claude API overloaded after multiple attempts" := by rw [hmk]
  have hcl : classify_document oracle maxRetries document_text filename =
      { filename := filename
        error := true
        document_type := "ERROR"
        importance := "MEDIUM"
        status := "UNKNOWN"
        confidence := "LOW"
        summary := "Classification failed: Claude API overloaded after multiple attempts"
        recommendation := "REVIEW_MANUALLY"
        key_parties := ""
        dollar_amount := "NONE"
        project_info := ""
        text_length := document_text.length } := by
    unfold classify_document
    rw [hres]
    rfl
  refine ⟨by rw [hmk], ?_, hres, by rw [hcl], by rw [hcl], by rw [hcl], by rw [hcl]⟩
  rw [hmk]
  show [] ++ _ = _
  rw [List.nil_append]
  apply List.map_congr_left
  intro i _
  rw [Nat.zero_add, Nat.mul_comm]

/-- Claim C3, witness: the concrete always-529 oracle with the default
retry budget of 3 makes 4 attempts, waits 5, 10, 20 seconds, and yields the
ERROR record. -/
theorem C3_witness :
    (make_api_request oracle529 3).attempts = 3 + 1 ∧
    (make_api_request oracle529 3).waits = (List.range 3).map (fun attempt => 5 * 2 ^ attempt) ∧
    (make_api_request oracle529 3).result =
      Except.error "Claude API overloaded after multiple attempts" ∧
    (classify_document oracle529 3 "body text" "doc.pdf").document_type = "ERROR" ∧
    (classify_document oracle529 3 "body text" "doc.pdf").confidence = "LOW" ∧
    (classify_document oracle529 3 "body text" "doc.pdf").summary =
      "Classification failed: Claude API overloaded after multiple attempts" ∧
    (classify_document oracle529 3 "body text" "doc.pdf").error = true :=
  C3_always_529 oracle529 (fun _ => ⟨"", rfl⟩) 3 "body text" "doc.pdf"

/-- Claim C8: the response parser ignores lines without a colon and lines
whose key matches none of the nine fields; any field the response never
mentions keeps its documented default (document_type UNKNOWN, importance
MEDIUM, status UNKNOWN, confidence MEDIUM, dollar_amount NONE,
recommendation REVIEW_MANUALLY); parsing is total and the result always
carries the input filename. -/
theorem C8_parser_defaults :
    (∀ (r : Classification) (line : String),
        breakAtChar ':' line.data = none → applyLine r line = r) ∧
    (∀ (r : Classification) (line : String),
        lineRecognized line = false → applyLine r line = r) ∧
    (∀ response filename : String,
        (parse_classification_response response filename).filename = filename) ∧
    (∀ response filename : String,
        (∀ line ∈ splitLines response, lineMentions "DOCUMENT_TYPE" line = false) →
          (parse_classification_response response filename).document_type = "UNKNOWN") ∧
    (∀ response filename : String,
        (∀ line ∈ splitLines response, lineMentions "IMPORTANCE" line = false) →
          (parse_classification_response response filename).importance = "MEDIUM") ∧
    (∀ response filename : String,
        (∀ line ∈ splitLines response, lineMentions "STATUS" line = false) →
          (parse_classification_response response filename).status = "UNKNOWN") ∧
    (∀ response filename : String,
        (∀ line ∈ splitLines response, lineMentions "CONFIDENCE" line = false) →
          (parse_classification_response response filename).confidence = "MEDIUM") ∧
    (∀ response filename : String,
        (∀ line ∈ splitLines response, lineMentions "DOLLAR_AMOUNT" line = false) →
          (parse_classification_response response filename).dollar_amount = "NONE") ∧
    (∀ response filename : String,
        (∀ line ∈ splitLines response, lineMentions "RECOMMENDATION" line = false) →
          (parse_classification_response response filename).recommendation = "REVIEW_MANUALLY") := by
  refine ⟨applyLine_no_colon, applyLine_unrecognized, ?_, ?_, ?_, ?_, ?_, ?_, ?_⟩
  · intro response filename
    exact foldl_applyLine_preserve (fun c => c.filename) (fun _ => True)
      (fun r line _ => applyLine_filename r line) (splitLines response)
      (parseDefaults filename) (fun _ _ => trivial)
  · intro response filename h
    exact foldl_applyLine_preserve (fun c => c.document_type) _
      applyLine_document_type (splitLines response) (parseDefaults filename) h
  · intro response filename h
    exact foldl_applyLine_preserve (fun c => c.importance) _
      applyLine_importance (splitLines response) (parseDefaults filename) h
  · intro response filename h
    exact foldl_applyLine_preserve (fun c => c.status) _
      applyLine_status (splitLines response) (parseDefaults filename) h
  · intro response filename h
    exact foldl_applyLine_preserve (fun c => c.confidence) _
      applyLine_confidence (splitLines response) (parseDefaults filename) h
  · intro response filename h
    exact foldl_applyLine_preserve (fun c => c.dollar_amount) _
      applyLine_dollar_amount (splitLines response) (parseDefaults filename) h
  · intro response filename h
    exact foldl_applyLine_preserve (fun c => c.recommendation) _
      applyLine_recommendation (splitLines response) (parseDefaults filename) h

/-- Claim C8, witness: a colon-free line and an unrecognized keyed line
leave the record unchanged, and a response mentioning only DOCUMENT_TYPE
keeps the other fields at their defaults. -/
theorem C8_witness :
    applyLine (parseDefaults "doc.pdf") "a line with no colon at all" = parseDefaults "doc.pdf" ∧
    applyLine (parseDefaults "doc.pdf") "EXTRANEOUS: value" = parseDefaults "doc.pdf" ∧
    (parse_classification_response "DOCUMENT_TYPE: INVOICE\nweird noise" "doc.pdf").filename
      = "doc.pdf" ∧
    (parse_classification_response "DOCUMENT_TYPE: INVOICE\nweird noise" "doc.pdf").importance
      = "MEDIUM" ∧
    (parse_classification_response "DOCUMENT_TYPE: INVOICE\nweird noise" "doc.pdf").recommendation
      = "REVIEW_MANUALLY" :=
  ⟨C8_parser_defaults.1 (parseDefaults "doc.pdf") "a line with no colon at all" (by decide),
    C8_parser_defaults.2.1 (parseDefaults "doc.pdf") "EXTRANEOUS: value" (by decide),
    C8_parser_defaults.2.2.1 "DOCUMENT_TYPE: INVOICE\nweird noise" "doc.pdf",
    C8_parser_defaults.2.2.2.2.1 "DOCUMENT_TYPE: INVOICE\nweird noise" "doc.pdf" (by decide),
    C8_parser_defaults.2.2.2.2.2.2.2.2 "DOCUMENT_TYPE: INVOICE\nweird noise" "doc.pdf" (by decide)⟩

/-- The ranked list always has exactly as many entries as the input
classification list (error records included). -/
theorem rank_documents_length (l : List Classification) :
    (rank_documents l).length = l.length := by
  by_cases h : l = []
  · subst h; rfl
  · rw [rank_documents_eq l h, addRanks_length, sortDescBy_length, List.length_map]

/-- Claim C4: the orchestrator aborts the run if and only if zero documents
were successfully processed into classifications: the classification list
has one entry per file whose extraction yielded usable text, the run
returns a result exactly when at least one such file exists, raises the
run-level failure exactly when none does, and any returned result is fully
assembled (ranked list over all classifications, main contract, summary,
failed-file list). -/
theorem C4_zero_success_aborts (classify : String → String → Classification)
    (files : List FileInput) :
    ((process_pdf_files classify files).1.length = files.countP extractionSucceeds) ∧
    ((process_pdf_files classify files).2.length =
      files.countP (fun f => !extractionSucceeds f)) ∧
    ((∃ r, analyze_directory_complete classify files = Except.ok r) ↔
      ∃ f ∈ files, extractionSucceeds f = true) ∧
    ((analyze_directory_complete classify files =
        Except.error "Directory analysis failed: No documents could be successfully processed") ↔
      ∀ f ∈ files, extractionSucceeds f = false) ∧
    (∀ r, analyze_directory_complete classify files = Except.ok r →
      r.success = true ∧
      r.ranked_documents.length = files.countP extractionSucceeds ∧
      r.main_contract = identify_main_contract (process_pdf_files classify files).1 ∧
      r.classification_summary =
        generate_classification_summary (process_pdf_files classify files).1 ∧
      r.failed_files = (process_pdf_files classify files).2) := by
  obtain ⟨hlen1, hlen2⟩ := process_pdf_files_lengths classify files
  have hkey : (process_pdf_files classify files).1.isEmpty = true ↔
      files.countP extractionSucceeds = 0 := by
    rw [List.isEmpty_iff, ← hlen1, List.length_eq_zero]
  refine ⟨hlen1, hlen2, ?_, ?_, ?_⟩
  · constructor
    · rintro ⟨r, hr⟩
      unfold analyze_directory_complete at hr
      by_cases hcase : (process_pdf_files classify files).1.isEmpty
      · rw [if_pos hcase] at hr
        cases hr
      · have hpos : 0 < files.countP extractionSucceeds := by
          rcases Nat.eq_zero_or_pos (files.countP extractionSucceeds) with h0 | h0
          · exact absurd (hkey.mpr h0) hcase
          · exact h0
        exact List.countP_pos_iff.mp hpos
    · rintro ⟨f, hf, hp⟩
      have hpos : 0 < files.countP extractionSucceeds :=
        List.countP_pos_iff.mpr ⟨f, hf, hp⟩
      have hne : ¬ (process_pdf_files classify files).1.isEmpty = true := by
        intro hq
        rw [hkey] at hq
        omega
      refine ⟨{ success := true
                main_contract := identify_main_contract (process_pdf_files classify files).1
                ranked_documents := rank_documents (process_pdf_files classify files).1
                classification_summary :=
                  generate_classification_summary (process_pdf_files classify files).1
                failed_files := (process_pdf_files classify files).2 }, ?_⟩
      unfold analyze_directory_complete
      rw [if_neg hne]
  · constructor
    · intro hq
      unfold analyze_directory_complete at hq
      by_cases hcase : (process_pdf_files classify files).1.isEmpty
      · have h0 := hkey.mp hcase
        intro f hf
        have hnot := List.countP_eq_zero.mp h0 f hf
        cases hx : extractionSucceeds f
        · rfl
        · exact absurd hx hnot
      · rw [if_neg hcase] at hq
        cases hq
    · intro hall
      have h0 : files.countP extractionSucceeds = 0 :=
        List.countP_eq_zero.mpr (fun f hf => by rw [hall f hf]; simp)
      unfold analyze_directory_complete
      rw [if_pos (hkey.mpr h0)]
  · intro r hr
    unfold analyze_directory_complete at hr
    by_cases hcase : (process_pdf_files classify files).1.isEmpty
    · rw [if_pos hcase] at hr
      cases hr
    · rw [if_neg hcase] at hr
      cases hr
      exact ⟨rfl, by rw [rank_documents_length, hlen1], rfl, rfl, rfl⟩

/-- Claim C4, witness: on three concrete files (one failing extraction, one
with ample text, one too short) the run succeeds with one classification
and two failed files. -/
theorem C4_witness :
    ((process_pdf_files stubClassify exampleFiles).1.length =
      exampleFiles.countP extractionSucceeds) ∧
    ((process_pdf_files stubClassify exampleFiles).2.length =
      exampleFiles.countP (fun f => !extractionSucceeds f)) ∧
    ((∃ r, analyze_directory_complete stubClassify exampleFiles = Except.ok r) ↔
      ∃ f ∈ exampleFiles, extractionSucceeds f = true) ∧
    ((analyze_directory_complete stubClassify exampleFiles =
        Except.error "Directory analysis failed: No documents could be successfully processed") ↔
      ∀ f ∈ exampleFiles, extractionSucceeds f = false) ∧
    (∀ r, analyze_directory_complete stubClassify exampleFiles = Except.ok r →
      r.success = true ∧
      r.ranked_documents.length = exampleFiles.countP extractionSucceeds ∧
      r.main_contract = identify_main_contract (process_pdf_files stubClassify exampleFiles).1 ∧
      r.classification_summary =
        generate_classification_summary (process_pdf_files stubClassify exampleFiles).1 ∧
      r.failed_files = (process_pdf_files stubClassify exampleFiles).2) :=
  C4_zero_success_aborts stubClassify exampleFiles

/-- Claim C7: `rank_documents` returns exactly one entry per input record,
sorted non-increasingly by score with ranks exactly 1..N (dense, 1-based,
no gaps or duplicates); the sort is stable — for every score value, the
entries carrying it appear in original input order — and the empty input
yields the empty list without failing. -/
theorem C7_rank_documents (l : List Classification) (s : Int) :
    (rank_documents l).length = l.length ∧
    (rank_documents l).map (fun d => d.rank) = List.range' 1 l.length ∧
    (rank_documents l).Pairwise (fun a b => b.importance_score ≤ a.importance_score) ∧
    ((rank_documents l).map stripRanked).filter (fun e => e.importance_score == s) =
      (l.map (enhanceDoc (identify_main_contract l))).filter
        (fun e => e.importance_score == s) ∧
    rank_documents ([] : List Classification) = [] := by
  refine ⟨rank_documents_length l, ?_, ?_, ?_, rfl⟩
  · by_cases h : l = []
    · subst h; rfl
    · rw [rank_documents_eq l h, addRanks_map_rank, sortDescBy_length, List.length_map]
  · by_cases h : l = []
    · subst h; exact List.Pairwise.nil
    · rw [rank_documents_eq l h]
      exact addRanks_pairwise 1 _ (sortDescBy_pairwise (fun e => e.importance_score) _)
  · by_cases h : l = []
    · subst h; rfl
    · rw [rank_documents_eq l h, addRanks_map_strip]
      exact filter_sortDescBy (fun e : Enhanced => e.importance_score) _ s
        (fun x hx => by simpa using hx) _

/-- In a list of classifications with pairwise distinct filenames, at most
one record carries any given filename. -/
theorem countP_filename_le_one (f : String) (l : List Classification)
    (h : l.Pairwise (fun a b => a.filename ≠ b.filename)) :
    l.countP (fun c => c.filename == f) ≤ 1 := by
  induction l with
  | nil => simp
  | cons a t ih =>
      rw [List.pairwise_cons] at h
      rw [List.countP_cons]
      by_cases ha : a.filename = f
      · have h0 : t.countP (fun c => c.filename == f) = 0 :=
          List.countP_eq_zero.mpr (fun b hb => by
            intro hq
            exact h.1 b hb (by rw [ha]; exact (beq_iff_eq.mp hq).symm))
        simp [ha, h0]
      · simp [ha, ih h.2]

/-- Claim C5, counterexample: on an input list containing the same
primary-contract record twice (two entries with the same filename),
`rank_documents` flags both copies as the main contract, so the ranked list
carries two entries with `is_main_contract = true`, refuting the claim for
arbitrary input lists. -/
theorem C5_counterexample :
    ¬ ((rank_documents [docDup, docDup]).countP (fun d => d.is_main_contract) ≤ 1) := by
  decide

/-- Claim C5, amended: for every input list whose classifications have
pairwise distinct filenames (as classifications produced from one directory
scan do), the ranked list contains at most one document with
`is_main_contract = true`; for the empty classification set the selector
returns `none` and ranking returns `[]`, with no error. -/
theorem C5_at_most_one (l : List Classification)
    (hdist : l.Pairwise (fun a b => a.filename ≠ b.filename)) :
    (rank_documents l).countP (fun d => d.is_main_contract) ≤ 1 ∧
    identify_main_contract ([] : List Classification) = none ∧
    rank_documents ([] : List Classification) = [] := by
  refine ⟨?_, rfl, rfl⟩
  by_cases h : l = []
  · subst h
    simp [rank_documents]
  · rw [rank_documents_eq l h]
    have h1 : (addRanks 1 (sortDescBy (fun e => e.importance_score)
        (l.map (enhanceDoc (identify_main_contract l))))).countP
          (fun d => d.is_main_contract) =
        (sortDescBy (fun e => e.importance_score)
          (l.map (enhanceDoc (identify_main_contract l)))).countP
          (fun e => e.is_main_contract) := by
      rw [show (fun d : Ranked => d.is_main_contract) =
          ((fun e : Enhanced => e.is_main_contract) ∘ stripRanked) from rfl]
      rw [← List.countP_map, addRanks_map_strip]
    rw [h1, (sortDescBy_perm (fun e : Enhanced => e.importance_score) _).countP_eq,
      List.countP_map]
    cases hm : identify_main_contract l with
    | none =>
        have hconst : ((fun e : Enhanced => e.is_main_contract) ∘
            enhanceDoc none) = fun _ => false := by
          funext c
          rfl
        rw [hconst]
        simp
    | some m =>
        have hsub : ∀ c ∈ l, ((fun e : Enhanced => e.is_main_contract) ∘
            enhanceDoc (some m)) c = true →
            (c.filename == m.classification.filename) = true := by
          intro c _ hq
          have : ((m.classification.filename != "") &&
              (c.filename == m.classification.filename)) = true := hq
          exact (Bool.and_eq_true _ _).mp this |>.2
        calc l.countP ((fun e : Enhanced => e.is_main_contract) ∘ enhanceDoc (some m))
            ≤ l.countP (fun c => c.filename == m.classification.filename) :=
              List.countP_mono_left hsub
          _ ≤ 1 := countP_filename_le_one _ l hdist

/-- Claim C5, witness: a concrete two-document list with distinct filenames
has at most one main contract in its ranked output. -/
theorem C5_witness :
    (rank_documents [docFinalLow, docExecutedHigh]).countP (fun d => d.is_main_contract) ≤ 1 ∧
    identify_main_contract ([] : List Classification) = none ∧
    rank_documents ([] : List Classification) = [] :=
  C5_at_most_one [docFinalLow, docExecutedHigh] (by decide)

/-- Members of `scored_docs` are non-error input records paired with their
scores. -/
theorem mem_scoredDocs (l : List Classification) (p : Classification × Int)
    (hp : p ∈ scoredDocs l) :
    p.1 ∈ l ∧ p.1.error = false ∧ p.2 = score_document_importance p.1 := by
  unfold scoredDocs at hp
  obtain ⟨c, hc, heq⟩ := List.mem_map.mp hp
  obtain ⟨hcl, hce⟩ := List.mem_filter.mp hc
  cases heq
  exact ⟨hcl, by simpa using hce, rfl⟩

/-- Sorting does not add or remove scored records. -/
theorem mem_sortedScoredDocs (l : List Classification) (p : Classification × Int)
    (hp : p ∈ sortedScoredDocs l) : p ∈ scoredDocs l :=
  ((sortDescBy_perm (fun q : Classification × Int => q.2) (scoredDocs l)).mem_iff).mp hp

/-- Members of `primary_contracts` are scored records of type
PRIMARY_CONTRACT. -/
theorem mem_primaryContracts (l : List Classification) (p : Classification × Int)
    (hp : p ∈ primaryContracts l) :
    p ∈ scoredDocs l ∧ p.1.document_type = "PRIMARY_CONTRACT" := by
  obtain ⟨h1, h2⟩ := List.mem_filter.mp hp
  exact ⟨mem_sortedScoredDocs l p h1, by simpa using h2⟩

/-- With at least one non-error record, `identify_main_contract` reduces to
its three-branch selection over the sorted scored docs. -/
theorem identify_eq_of_guards (l : List Classification) (hsc : scoredDocs l ≠ []) :
    identify_main_contract l =
      match (primaryContracts l).find? (fun p => hasStrongIndicator p.1.filename) with
      | some p => some ⟨p.1, p.2,
          "Primary contract with \x27" ++ matchedIndicator p.1.filename ++ "\x27 indicator",
          l.length⟩
      | none =>
          match primaryContracts l with
          | q :: _ => some ⟨q.1, q.2,
              "Highest scoring among " ++ toString (primaryContracts l).length ++
                " primary contracts", l.length⟩
          | [] =>
              match sortedScoredDocs l with
              | s :: _ => some ⟨s.1, s.2,
                  "Highest scoring document (type: " ++ s.1.document_type ++
                    ") - no primary contracts found", l.length⟩
              | [] => none := by
  have hl : l ≠ [] := by
    intro h
    subst h
    exact hsc rfl
  unfold identify_main_contract
  rw [if_neg (by simpa using hl), if_neg (by simpa using hsc)]

/-- Claim C6: when at least one non-error record exists and no non-error
record is a PRIMARY_CONTRACT, the selector returns the highest-scoring
non-error document overall — specifically the first record of the original
(filtered) order attaining the maximal score, so ties go to the earlier
record — with the reason naming the document's type and that no primary
contracts were found, and with the chosen score and total document count
attached. -/
theorem C6_no_primary (l : List Classification)
    (h1 : ∃ c ∈ l, c.error = false)
    (h2 : ∀ c ∈ l, c.error = false → c.document_type ≠ "PRIMARY_CONTRACT") :
    ∃ r, identify_main_contract l = some r ∧
      r.classification ∈ l ∧
      r.classification.error = false ∧
      r.classification.document_type ≠ "PRIMARY_CONTRACT" ∧
      r.importance_score = score_document_importance r.classification ∧
      r.ranking_reason = "Highest scoring document (type: " ++
        r.classification.document_type ++ ") - no primary contracts found" ∧
      r.total_documents_analyzed = l.length ∧
      ∃ l1 l2, scoredDocs l = l1 ++ (r.classification, r.importance_score) :: l2 ∧
        (∀ x ∈ l1, x.2 < r.importance_score) ∧
        (∀ x ∈ l2, x.2 ≤ r.importance_score) := by
  obtain ⟨c, hcl, hce⟩ := h1
  have hmem : (c, score_document_importance c) ∈ scoredDocs l := by
    unfold scoredDocs
    exact List.mem_map_of_mem _ (List.mem_filter.mpr ⟨hcl, by simp [hce]⟩)
  have hsc : scoredDocs l ≠ [] := fun h => by
    rw [h] at hmem
    cases hmem
  have hpc : primaryContracts l = [] := by
    rw [primaryContracts, List.filter_eq_nil_iff]
    intro p hp
    have hm := mem_scoredDocs l p (mem_sortedScoredDocs l p hp)
    have := h2 p.1 hm.1 hm.2.1
    simpa using this
  have hssne : sortedScoredDocs l ≠ [] := by
    intro h
    have hlen := sortDescBy_length (fun q : Classification × Int => q.2) (scoredDocs l)
    rw [show sortDescBy (fun q : Classification × Int => q.2) (scoredDocs l) =
        sortedScoredDocs l from rfl, h] at hlen
    exact hsc (List.eq_nil_of_length_eq_zero hlen.symm)
  obtain ⟨s, ss, hss⟩ := List.exists_cons_of_ne_nil hssne
  have hhead : firstMaxBy (fun q : Classification × Int => q.2) (scoredDocs l) = some s := by
    rw [← head?_sortDescBy]
    rw [show sortDescBy (fun q : Classification × Int => q.2) (scoredDocs l) =
        sortedScoredDocs l from rfl, hss]
    rfl
  obtain ⟨l1, l2, hsplit, hl1, hl2⟩ := firstMaxBy_split _ _ _ hhead
  have hsmem : s ∈ scoredDocs l := by
    rw [hsplit]
    exact List.mem_append_right _ (List.mem_cons_self _ _)
  obtain ⟨hsl, hserr, hsscore⟩ := mem_scoredDocs l s hsmem
  refine ⟨⟨s.1, s.2, "Highest scoring document (type: " ++ s.1.document_type ++
      ") - no primary contracts found", l.length⟩,
    ?_, hsl, hserr, h2 s.1 hsl hserr, hsscore, rfl, rfl, l1, l2, hsplit, hl1, hl2⟩
  rw [identify_eq_of_guards l hsc, hpc]
  dsimp only [List.find?]
  rw [hss]

/-- Claim C6, witness: with only an AMENDMENT (score 65) and a SCHEDULE
(score 50), the AMENDMENT is selected with the no-primary-contracts
reason. -/
theorem C6_witness :
    ∃ r, identify_main_contract [docAmendment, docSchedule] = some r ∧
      r.classification ∈ [docAmendment, docSchedule] ∧
      r.classification.error = false ∧
      r.classification.document_type ≠ "PRIMARY_CONTRACT" ∧
      r.importance_score = score_document_importance r.classification ∧
      r.ranking_reason = "Highest scoring document (type: " ++
        r.classification.document_type ++ ") - no primary contracts found" ∧
      r.total_documents_analyzed = ([docAmendment, docSchedule] : List Classification).length ∧
      ∃ l1 l2, scoredDocs [docAmendment, docSchedule] =
          l1 ++ (r.classification, r.importance_score) :: l2 ∧
        (∀ x ∈ l1, x.2 < r.importance_score) ∧
        (∀ x ∈ l2, x.2 ≤ r.importance_score) :=
  C6_no_primary [docAmendment, docSchedule] ⟨docAmendment, by simp, rfl⟩ (by decide)

/-- Claim C1, counterexample: in `[docFinalLow, docExecutedHigh]` the first
primary contract in original classification-list order whose filename
carries a strong indicator is "a_final.pdf" (indicator "final"), yet the
selector picks "b_executed.pdf", because it scans the primary contracts in
score-descending order (175 beats 95), not in original list order, refuting
the claim as stated. -/
theorem C1_counterexample :
    docFinalLow.document_type = "PRIMARY_CONTRACT" ∧
    docFinalLow.error = false ∧
    hasStrongIndicator docFinalLow.filename = true ∧
    score_document_importance docFinalLow < score_document_importance docExecutedHigh ∧
    (identify_main_contract [docFinalLow, docExecutedHigh]).map
      (fun r => r.classification.filename) = some "b_executed.pdf" ∧
    docFinalLow.filename ≠ "b_executed.pdf" := by
  refine ⟨by decide, by decide, by decide, by decide, by decide, by decide⟩

/-- Claim C1, amended: the selector scans the primary-contract subset in
score-descending order (stable, so equal scores keep original
classification order) and picks the first whose filename contains one of
executed/clean/final/signed, tagging it with a reason naming the matched
indicator (the first indicator of that list present in the filename); the
chosen record is a non-error PRIMARY_CONTRACT carrying its score, every
primary contract sorted before it lacks an indicator, and the scan order is
exactly the score-sorted, stability-preserving order of the non-error
records. -/
theorem C1_indicator_scan (l : List Classification) (p : Classification × Int)
    (h : (primaryContracts l).find? (fun q => hasStrongIndicator q.1.filename) = some p) :
    identify_main_contract l = some ⟨p.1, p.2,
      "Primary contract with \x27" ++ matchedIndicator p.1.filename ++ "\x27 indicator",
      l.length⟩ ∧
    p.1.document_type = "PRIMARY_CONTRACT" ∧
    p.1.error = false ∧
    hasStrongIndicator p.1.filename = true ∧
    p.2 = score_document_importance p.1 ∧
    (primaryContracts l).Pairwise (fun a b => b.2 ≤ a.2) ∧
    (∃ l1 l2, primaryContracts l = l1 ++ p :: l2 ∧
      ∀ x ∈ l1, hasStrongIndicator x.1.filename = false) ∧
    (∀ s : Int, (primaryContracts l).filter (fun x => x.2 == s) =
      (scoredDocs l).filter
        (fun x => (x.2 == s) && (x.1.document_type == "PRIMARY_CONTRACT"))) := by
  have hpmem : p ∈ primaryContracts l := List.mem_of_find?_eq_some h
  obtain ⟨hscored, htype⟩ := mem_primaryContracts l p hpmem
  obtain ⟨hl, herr, hscore⟩ := mem_scoredDocs l p hscored
  have hind : hasStrongIndicator p.1.filename = true := by
    have := List.find?_some h
    simpa using this
  have hsc : scoredDocs l ≠ [] := fun hq => by
    rw [hq] at hscored
    cases hscored
  refine ⟨?_, htype, herr, hind, hscore, ?_, ?_, ?_⟩
  · rw [identify_eq_of_guards l hsc, h]
  · exact List.Pairwise.sublist (List.filter_sublist _)
      (sortDescBy_pairwise (fun q : Classification × Int => q.2) (scoredDocs l))
  · obtain ⟨l1, l2, hsplit, hfalse, _⟩ := find?_split _ _ _ h
    exact ⟨l1, l2, hsplit, hfalse⟩
  · intro s
    rw [primaryContracts, List.filter_filter]
    exact filter_sortDescBy (fun q : Classification × Int => q.2)
      (fun x => (x.2 == s) && (x.1.document_type == "PRIMARY_CONTRACT")) s
      (fun x hx => by
        have := (Bool.and_eq_true _ _).mp hx
        exact beq_iff_eq.mp this.1) (scoredDocs l)

/-- Claim C1, witness: on the two-primary example the selector picks the
"executed"-indicator contract with score 175. -/
theorem C1_witness :
    identify_main_contract [docFinalLow, docExecutedHigh] =
      some ⟨docExecutedHigh, 175,
        "Primary contract with \x27" ++ matchedIndicator docExecutedHigh.filename ++
          "\x27 indicator",
        ([docFinalLow, docExecutedHigh] : List Classification).length⟩ ∧
    docExecutedHigh.document_type = "PRIMARY_CONTRACT" ∧
    docExecutedHigh.error = false ∧
    hasStrongIndicator docExecutedHigh.filename = true ∧
    (175 : Int) = score_document_importance docExecutedHigh ∧
    (primaryContracts [docFinalLow, docExecutedHigh]).Pairwise (fun a b => b.2 ≤ a.2) ∧
    (∃ l1 l2, primaryContracts [docFinalLow, docExecutedHigh] =
        l1 ++ (docExecutedHigh, (175 : Int)) :: l2 ∧
      ∀ x ∈ l1, hasStrongIndicator x.1.filename = false) ∧
    (∀ s : Int, (primaryContracts [docFinalLow, docExecutedHigh]).filter
        (fun x => x.2 == s) =
      (scoredDocs [docFinalLow, docExecutedHigh]).filter
        (fun x => (x.2 == s) && (x.1.document_type == "PRIMARY_CONTRACT"))) :=
  C1_indicator_scan [docFinalLow, docExecutedHigh] (docExecutedHigh, 175) (by decide)

/-- Whatever `identify_main_contract` returns came from the scored
non-error records, with the input length attached. -/
theorem identify_some_inv (l : List Classification) (r : MainResult)
    (h : identify_main_contract l = some r) :
    (r.classification, r.importance_score) ∈ scoredDocs l ∧
    r.total_documents_analyzed = l.length := by
  have hsc : scoredDocs l ≠ [] := by
    intro hq
    unfold identify_main_contract at h
    by_cases hl : l.isEmpty
    · rw [if_pos hl] at h
      cases h
    · rw [if_neg hl, if_pos (by simp [hq])] at h
      cases h
  rw [identify_eq_of_guards l hsc] at h
  cases hfind : (primaryContracts l).find? (fun p => hasStrongIndicator p.1.filename) with
  | some p =>
      rw [hfind] at h
      dsimp only at h
      have h' := Option.some.inj h
      subst h'
      exact ⟨(mem_primaryContracts l p (List.mem_of_find?_eq_some hfind)).1, rfl⟩
  | none =>
      rw [hfind] at h
      dsimp only at h
      cases hpc : primaryContracts l with
      | cons q qs =>
          rw [hpc] at h
          dsimp only at h
          have h' := Option.some.inj h
          subst h'
          have hq : q ∈ primaryContracts l := by
            rw [hpc]
            exact List.mem_cons_self _ _
          exact ⟨(mem_primaryContracts l q hq).1, rfl⟩
      | nil =>
          rw [hpc] at h
          dsimp only at h
          cases hss : sortedScoredDocs l with
          | cons s2 ss2 =>
              rw [hss] at h
              dsimp only at h
              have h' := Option.some.inj h
              subst h'
              have hs2 : s2 ∈ sortedScoredDocs l := by
                rw [hss]
                exact List.mem_cons_self _ _
              exact ⟨mem_sortedScoredDocs l s2 hs2, rfl⟩
          | nil =>
              rw [hss] at h
              cases h

/-- Claim C10: records carrying an error are never chosen as the main
contract (the selector's choice always has `error = false`); the
classification summary's four frequency tables count only non-error
records while `total_documents` counts the whole list; and
`rank_documents` still scores every error record, includes it in the
ranked output with a rank in 1..N, and assigns it a priority level. -/
theorem C10_error_handling (l : List Classification) (t : String) :
    (∀ r, identify_main_contract l = some r → r.classification.error = false) ∧
    (generate_classification_summary l).total_documents = l.length ∧
    dictGet (generate_classification_summary l).by_type t =
      l.countP (fun c => !c.error && c.document_type == t) ∧
    dictGet (generate_classification_summary l).by_importance t =
      l.countP (fun c => !c.error && c.importance == t) ∧
    dictGet (generate_classification_summary l).by_status t =
      l.countP (fun c => !c.error && c.status == t) ∧
    dictGet (generate_classification_summary l).recommendations t =
      l.countP (fun c => !c.error && c.recommendation == t) ∧
    (rank_documents l).length = l.length ∧
    (∀ c ∈ l, c.error = true →
      ∃ d ∈ rank_documents l, d.doc = c ∧
        d.importance_score = score_document_importance c ∧
        1 ≤ d.rank ∧ d.rank ≤ l.length ∧
        d.priority_level = determine_priority_level (stripRanked d) d.rank) := by
  refine ⟨?_, ?_, ?_, ?_, ?_, ?_, rank_documents_length l, ?_⟩
  · intro r hr
    obtain ⟨hmem, _⟩ := identify_some_inv l r hr
    exact (mem_scoredDocs l _ hmem).2.1
  · by_cases h : l = []
    · subst h
      rfl
    · unfold generate_classification_summary
      rw [if_neg (by simpa using h), summaryLoop_total]
  · by_cases h : l = []
    · subst h
      rfl
    · unfold generate_classification_summary
      rw [if_neg (by simpa using h), summaryLoop_by_type]
      simp [dictGet_nil]
  · by_cases h : l = []
    · subst h
      rfl
    · unfold generate_classification_summary
      rw [if_neg (by simpa using h), summaryLoop_by_importance]
      simp [dictGet_nil]
  · by_cases h : l = []
    · subst h
      rfl
    · unfold generate_classification_summary
      rw [if_neg (by simpa using h), summaryLoop_by_status]
      simp [dictGet_nil]
  · by_cases h : l = []
    · subst h
      rfl
    · unfold generate_classification_summary
      rw [if_neg (by simpa using h), summaryLoop_recommendations]
      simp [dictGet_nil]
  · intro c hcl _
    by_cases h : l = []
    · subst h
      cases hcl
    · rw [rank_documents_eq l h]
      have he : enhanceDoc (identify_main_contract l) c ∈
          l.map (enhanceDoc (identify_main_contract l)) :=
        List.mem_map_of_mem _ hcl
      have he2 : enhanceDoc (identify_main_contract l) c ∈
          sortDescBy (fun e : Enhanced => e.importance_score)
            (l.map (enhanceDoc (identify_main_contract l))) :=
        ((sortDescBy_perm _ _).mem_iff).mpr he
      obtain ⟨d, hd, hstrip, hk, hlt, hpl⟩ := addRanks_mem 1 _ _ he2
      refine ⟨d, hd, ?_, ?_, hk, ?_, ?_⟩
      · exact congrArg Enhanced.doc hstrip
      · exact congrArg Enhanced.importance_score hstrip
      · rw [sortDescBy_length, List.length_map] at hlt
        omega
      · rw [hpl, hstrip]

/-- Claim C10, witness: with one ERROR record and one AMENDMENT, the main
contract is the non-error AMENDMENT, the by-type table counts one
AMENDMENT and zero ERROR entries, yet the total and the ranked list cover
both records. -/
theorem C10_witness :
    ((identify_main_contract [docError, docAmendment]).map
      (fun r => r.classification.error) = some false) ∧
    dictGet (generate_classification_summary [docError, docAmendment]).by_type "AMENDMENT" = 1 ∧
    dictGet (generate_classification_summary [docError, docAmendment]).by_type "ERROR" = 0 ∧
    (generate_classification_summary [docError, docAmendment]).total_documents = 2 ∧
    (rank_documents [docError, docAmendment]).length = 2 := by
  have h := C10_error_handling [docError, docAmendment] "AMENDMENT"
  refine ⟨?_, ?_, ?_, ?_, ?_⟩
  · have hid : identify_main_contract [docError, docAmendment] =
        some ⟨docAmendment, 65,
          "Highest scoring document (type: AMENDMENT) - no primary contracts found", 2⟩ := by
      decide
    rw [hid]
    have := h.1 ⟨docAmendment, 65,
      "Highest scoring document (type: AMENDMENT) - no primary contracts found", 2⟩ hid
    simpa using this
  · exact h.2.2.1.trans (by decide)
  · exact ((C10_error_handling [docError, docAmendment] "ERROR").2.2.1).trans (by decide)
  · exact h.2.1.trans (by decide)
  · exact (h.2.2.2.2.2.2.1).trans (by decide)

end DirAnalyzer
